import Mathlib

/-!
Shallow embedding of the operation-log / recovery subsystem of the
macos-app-mcp repository (src/utils/logger.ts, src/utils/recovery.ts,
src/apps/notes.ts, src/apps/reminders.ts, src/apps/calendar.ts).

Modelling conventions:
* The newline-delimited JSON log file is a `List Line`, where each line
  either parses to an `OperationLog` entry or is malformed (the JSON
  codec itself is not the subject of any claim, so a line carries its
  parse result directly).
* ISO-8601 timestamps are compared in the code only through
  `new Date(t).getTime()`; the model stores that numeric instant (`Int`).
* JavaScript truthiness (`!x`, `x || y`, `x ?? y`) is modelled explicitly
  by `Val.falsy`, `jsOrStr`, `Option.getD`-style helpers.
* External effects (AppleScript execution, `process.env.USER`, the
  append-time id generator and clock, injected disk-I/O failure) are an
  explicit environment `RecoveryEnv`; file state is threaded as
  `LogState`.  TypeScript `throw`/`try`/`catch` becomes `Except`.
* Size-based rotation (`rotateLogIfNeeded`) renames the active file to a
  `.old` sibling; no claim concerns rotation, and the model's `file` is
  the abstract append stream, so rotation is not part of the state.
-/

namespace MacosAppMcp

/-- JSON-like opaque snapshot payload stored in `data.before` / `data.after`. -/
inductive Val where
  | vnull
  | vbool (b : Bool)
  | vnum (n : Int)
  | vstr (s : String)
  | vobj (fields : List (String × Val))

/-- JavaScript truthiness test on a defined value (`!v` for non-undefined `v`). -/
def Val.falsy : Val → Bool
  | .vnull => true
  | .vbool b => !b
  | .vnum n => n == 0
  | .vstr s => s == ""
  | .vobj _ => false

/-- `v?.k`: optional-chained property read; `null?.k` and reads on
non-objects give `undefined` (`none`). -/
def optChain (v : Option Val) (k : String) : Option Val :=
  match v with
  | some (.vobj fields) => fields.lookup k
  | _ => none

/-- Truthiness of a possibly-undefined value (`!x` negated). -/
def optTruthy (v : Option Val) : Bool :=
  match v with
  | none => false
  | some w => !w.falsy

/-- `a || d` for an optional string, with `""` falsy. -/
def jsOrStr (a : Option String) (d : String) : String :=
  match a with
  | some s => if s == "" then d else s
  | none => d

/-- `a || b` keeping the optional shape (`""` falsy). -/
def jsOrOpt (a b : Option String) : Option String :=
  match a with
  | some s => if s == "" then b else some s
  | none => b

/-- JavaScript string coercion of a possibly-undefined string
(`undefined + " suffix"` prints as `"undefined suffix"`). -/
def jsToStr : Option String → String
  | some s => s
  | none => "undefined"

/-- `operation` field: `"create" | "update" | "delete"`. -/
inductive OpKind where
  | create
  | update
  | delete
deriving DecidableEq, Repr

/-- `app` field: `"notes" | "reminders" | "calendar" | "contacts"`. -/
inductive App where
  | notes
  | reminders
  | calendar
  | contacts
deriving DecidableEq, Repr

/-- App name as interpolated into messages. -/
def App.str : App → String
  | .notes => "notes"
  | .reminders => "reminders"
  | .calendar => "calendar"
  | .contacts => "contacts"

/-- `OperationLog["target"]`: the variant identifying the affected item. -/
structure Target where
  title : Option String := none
  text : Option String := none
  summary : Option String := none
  name : Option String := none
deriving DecidableEq, Repr

/-- `OperationLog["data"]` — optional before/after snapshots. -/
structure OpData where
  before : Option Val := none
  after : Option Val := none

/-- `OperationLog["metadata"]` as stored in an entry. -/
structure Metadata where
  confirmed : Bool := false
  folder : Option String := none
  user : Option String := none

/-- One parsed log entry (`OperationLog` in src/utils/config.ts usage). -/
structure OperationLog where
  id : String
  timestamp : Int
  operation : OpKind
  app : App
  target : Target
  data : OpData
  metadata : Metadata

/-- The partial metadata accepted by `OperationLogger.log`. -/
structure PartialMeta where
  confirmed : Option Bool := none
  folder : Option String := none
  user : Option String := none

/-- One line of the newline-delimited log file: either it parses as an
entry or it is malformed (dropped by `readLogs`). -/
inductive Line where
  | malformed (raw : String)
  | entry (e : OperationLog)

/-- `JSON.parse` of one line, `null` on failure (readLogs lines 129-135). -/
def parseLine : Line → Option OperationLog
  | .malformed _ => none
  | .entry e => some e

/-- Mutable state owned by the logger: the active log file plus the id
generator (stands for `randomUUID`, made deterministic by a counter). -/
structure LogState where
  file : List Line
  nextId : Nat

/-- Deterministic stand-in for `randomUUID()`. -/
def genId (n : Nat) : String := "uuid-" ++ toString n

/-- Configuration flags consumed by the logger (ConfigManager surface). -/
structure Config where
  loggingEnabled : Bool

namespace OperationLogger

/-- The `try`-block of `OperationLogger.log` (lines 66-80): serialize and
append; an injected disk failure is the `throw` of `appendFileSync`. -/
def logTry (entry : OperationLog) (ioFails : Bool) (st : LogState) :
    Except String (String × LogState) :=
  if ioFails then .error "EIO: disk write failed"
  else .ok (entry.id,
    { file := st.file ++ [Line.entry entry], nextId := st.nextId + 1 })

/-- The entry `OperationLogger.log` builds (lines 52-64): fresh id,
current time, `confirmed ?? false`, `user ?? process.env.USER`. -/
def mkEntry (envUser : Option String) (now : Int) (operation : OpKind)
    (app : App) (target : Target) (data : OpData) (meta : PartialMeta)
    (n : Nat) : OperationLog :=
  { id := genId n
    timestamp := now
    operation := operation
    app := app
    target := target
    data := data
    metadata :=
      { confirmed := meta.confirmed.getD false
        folder := meta.folder
        user := match meta.user with
          | some u => some u
          | none => envUser } }

/-- `OperationLogger.log` (lines 41-81).  Returns the new entry's id (or
`""`), the new state, and the number of file writes attempted. -/
def log (cfg : Config) (envUser : Option String) (ioFails : Bool)
    (now : Int) (operation : OpKind) (app : App) (target : Target)
    (data : OpData) (meta : PartialMeta) (st : LogState) :
    String × LogState × Nat :=
  if !cfg.loggingEnabled then ("", st, 0)
  else
    match logTry (mkEntry envUser now operation app target data meta st.nextId)
        ioFails st with
    | .ok (id, st') => (id, st', 1)
    | .error _ => ("", st, 1)

/-- Filter/query options accepted by `readLogs`. -/
structure ReadOptions where
  limit : Option Nat := none
  operation : Option OpKind := none
  app : Option App := none
  since : Option Int := none

/-- Stable insertion used by the descending-timestamp sort: an element is
placed before the first element whose timestamp is not larger (matching
the stable JS `Array.prototype.sort` with comparator `tb - ta`). -/
def insertTsDesc (x : OperationLog) : List OperationLog → List OperationLog
  | [] => [x]
  | y :: ys =>
    if x.timestamp < y.timestamp then y :: insertTsDesc x ys
    else x :: y :: ys

/-- Stable sort, newest first (readLogs lines 154-158). -/
def sortTsDesc : List OperationLog → List OperationLog
  | [] => []
  | x :: xs => insertTsDesc x (sortTsDesc xs)

/-- `OperationLogger.readLogs` (lines 112-170): parse each line (dropping
malformed ones), apply the `operation`/`app`/`since` filters, sort
descending by timestamp, then truncate to `limit` (`0` is falsy in
`if (options?.limit)`, hence no truncation). -/
def readLogs (opts : ReadOptions) (file : List Line) : List OperationLog :=
  let logs := file.filterMap parseLine
  let logs := match opts.operation with
    | some k => logs.filter (fun l => l.operation = k)
    | none => logs
  let logs := match opts.app with
    | some a => logs.filter (fun l => l.app = a)
    | none => logs
  let logs := match opts.since with
    | some t => logs.filter (fun l => t ≤ l.timestamp)
    | none => logs
  let logs := sortTsDesc logs
  match opts.limit with
  | some n => if n ≠ 0 then logs.take n else logs
  | none => logs

/-- `s.startsWith(p)` from JavaScript, computed on the character list
(core's byte-position `String.isPrefixOf` does not reduce in the
kernel). -/
def strStartsWith (s p : String) : Bool := p.data.isPrefixOf s.data

/-- The match predicate of `getOperation`: exact id, or (for a supplied
id of length ≥ 8) the supplied id is a leading part of the entry's id. -/
def idMatches (id : String) (l : OperationLog) : Bool :=
  l.id == id || (decide (8 ≤ id.length) && strStartsWith l.id id)

/-- `OperationLogger.getOperation` (lines 175-183): first match of
`idMatches` over `readLogs` (which sorts newest first). -/
def getOperation (id : String) (file : List Line) : Option OperationLog :=
  (readLogs {} file).find? (idMatches id)

/-- `OperationLogger.cleanupOldLogs` (lines 205-228), with the cutoff
instant (`now` minus the retention days) passed explicitly.  Returns the
removed count and the resulting file. -/
def cleanupOldLogs (cutoff : Int) (file : List Line) : Nat × List Line :=
  let allLogs := readLogs {} file
  let logsToKeep := allLogs.filter (fun l => cutoff ≤ l.timestamp)
  let removedCount := allLogs.length - logsToKeep.length
  (removedCount,
    if removedCount > 0 then logsToKeep.map Line.entry else file)

end OperationLogger

/-- All external collaborators of one recovery request: AppleScript
execution results (value returned, or `.error` when the call throws),
configuration defaults, `process.env.USER`, the clock, and whether a
disk append would fail. -/
structure RecoveryEnv where
  notesNative : Except String String := .ok ""
  notesCreateExec : Except String String := .ok ""
  remindersNative : Except String String := .ok ""
  remindersAddExec : Except String String := .ok ""
  calendarCreateExec : Except String String := .ok ""
  defaultNotesFolder : String := ""
  defaultRemindersList : String := ""
  defaultCalendar : String := ""
  envUser : Option String := none
  now : Int := 0
  appendFails : Bool := false

/-- `Notes.create` (src/apps/notes.ts lines 121-164): run the
AppleScript, then log unless `options.skipLog` is set. -/
def Notes.create (cfg : Config) (env : RecoveryEnv) (title content : String)
    (folder : Option String) (skipLog : Bool) (st : LogState) :
    Except String (String × LogState) :=
  let targetFolder := jsOrStr folder env.defaultNotesFolder
  match env.notesCreateExec with
  | .error e => .error e
  | .ok _ =>
    let st' :=
      if !skipLog then
        (OperationLogger.log cfg env.envUser env.appendFails env.now
          .create .notes { title := some title }
          { after := some (.vstr content) }
          { folder := some targetFolder } st).2.1
      else st
    .ok ("Note \"" ++ title ++ "\" created successfully in folder \""
          ++ targetFolder ++ "\"", st')

/-- The `{ text, due }` object `Reminders.add` logs as `after`
(`JSON.stringify` drops an `undefined` `due`). -/
def remAddAfter (text : String) (due : Option Val) : Val :=
  .vobj ([("text", .vstr text)] ++
    (match due with | some d => [("due", d)] | none => []))

/-- `Reminders.add` (src/apps/reminders.ts lines 56-82): run the
AppleScript, then always log — the method has no skip-logging option. -/
def Reminders.add (cfg : Config) (env : RecoveryEnv) (text : String)
    (due : Option Val) (listName : Option String) (st : LogState) :
    Except String (String × LogState) :=
  let targetList := jsOrStr listName env.defaultRemindersList
  match env.remindersAddExec with
  | .error e => .error e
  | .ok _ =>
    let st' :=
      (OperationLogger.log cfg env.envUser env.appendFails env.now
        .create .reminders { text := some text }
        { after := some (remAddAfter text due) }
        { folder := some targetList } st).2.1
    .ok ("Reminder \"" ++ text ++ "\" added successfully to list \""
          ++ targetList ++ "\"", st')

/-- JS string coercion of a snapshot value, for message/field
interpolation sites that receive an `any`. -/
def Val.jsString : Val → String
  | .vnull => "null"
  | .vbool b => if b then "true" else "false"
  | .vnum n => toString n
  | .vstr s => s
  | .vobj _ => "[object Object]"

/-- `calendarName || this.config.getDefaultCalendar()`. -/
def calTarget (calendarName : Option Val) (defaultCal : String) : Val :=
  match calendarName with
  | some v => if v.falsy then .vstr defaultCal else v
  | none => .vstr defaultCal

/-- The event object `Calendar.createEvent` logs as `after`. -/
def calAddAfter (startDate endDate targetCalendar : Val)
    (location : Option Val) : Val :=
  .vobj ([("startDate", startDate), ("endDate", endDate),
    ("calendar", targetCalendar)] ++
    (match location with | some l => [("location", l)] | none => []))

/-- `Calendar.createEvent` (src/apps/calendar.ts lines 82-119): run the
AppleScript, then always log — the method has no skip-logging option.
The date/calendar/location arguments arrive as parsed snapshot values. -/
def Calendar.createEvent (cfg : Config) (env : RecoveryEnv)
    (summary : String) (startDate endDate : Val)
    (calendarName location : Option Val) (st : LogState) :
    Except String (String × LogState) :=
  let targetCalendar : Val := calTarget calendarName env.defaultCalendar
  match env.calendarCreateExec with
  | .error e => .error e
  | .ok _ =>
    let st' :=
      (OperationLogger.log cfg env.envUser env.appendFails env.now
        .create .calendar { summary := some summary }
        { after := some (calAddAfter startDate endDate targetCalendar location) }
        { folder := some targetCalendar.jsString } st).2.1
    .ok ("Event \"" ++ summary ++ "\" created successfully for "
          ++ startDate.jsString, st')

namespace RecoveryManager

open OperationLogger

/-- Options accepted by `listRecoverableOperations`. -/
structure ListOptions where
  app : Option App := none
  operation : Option OpKind := none
  limit : Option Nat := none

/-- `options?.limit || 50` (`0` is falsy). -/
def limitOr50 : Option Nat → Nat
  | some n => if n == 0 then 50 else n
  | none => 50

/-- `RecoveryManager.listRecoverableOperations` (recovery.ts lines
36-49): query (filtered, sorted, truncated), then keep entries whose
`data.before !== undefined`. -/
def listRecoverableOperations (opts : ListOptions) (file : List Line) :
    List OperationLog :=
  (readLogs { app := opts.app, operation := opts.operation,
              limit := some (limitOr50 opts.limit) } file).filter
    (fun log => log.data.before.isSome)

/-- The record returned by `getRecoveryDetails`. -/
structure RecoveryDetails where
  operation : OperationLog
  canRecover : Bool
  reason : Option String := none

/-- `RecoveryManager.getRecoveryDetails` (recovery.ts lines 54-86):
`!operation.data.before` is a truthiness test, so a `null`/`""`/`0`/
`false` snapshot counts as "no backup data". -/
def getRecoveryDetails (operationId : String) (file : List Line) :
    Option RecoveryDetails :=
  match getOperation operationId file with
  | none => none
  | some operation =>
    if !optTruthy operation.data.before then
      some { operation := operation, canRecover := false,
             reason := some "No backup data available for this operation" }
    else if operation.operation = .create then
      some { operation := operation, canRecover := false,
             reason := some "Cannot recover create operations (item still exists)" }
    else
      some { operation := operation, canRecover := true }

/-- `RecoveryManager.recoverNote` (recovery.ts lines 210-268): try the
native Recently-Deleted restoration; on anything but `"native_success"`
fall back to `Notes.create` with `skipLog: true`.  Throws (`.error`)
when the title or the `before` content is unusable. -/
def recoverNote (cfg : Config) (env : RecoveryEnv) (operation : OperationLog)
    (st : LogState) : Except String (String × LogState) :=
  let title := operation.target.title
  let content := operation.data.before
  let originalFolder := jsOrStr operation.metadata.folder "Notes"
  if jsOrStr title "" == "" then .error "Missing note title for recovery"
  else
    let nativeHit :=
      match env.notesNative with
      | .ok r => r == "native_success"
      | .error _ => false
    if nativeHit then
      .ok ("Note \"" ++ jsToStr title ++ "\" recovered natively by moving back to \""
            ++ originalFolder ++ "\"", st)
    else
      match content with
      | some (.vstr s) =>
        if s == "" then .error "Missing note content for fallback recovery"
        else Notes.create cfg env (jsToStr title) s (some originalFolder) true st
      | _ => .error "Missing note content for fallback recovery"

/-- `typeof data === "object" ? (data as any).dueDate : undefined`
(recovery.ts lines 323-324); a property read on `null` throws. -/
def dueDateOf : Option Val → Except String (Option Val)
  | some .vnull => .error "Cannot read properties of null (reading 'dueDate')"
  | some (.vobj fields) => .ok (fields.lookup "dueDate")
  | _ => .ok none

/-- `RecoveryManager.recoverReminder` (recovery.ts lines 273-326): try
the native restoration; on anything but `"native_success"` fall back to
`Reminders.add` — which has no skip-logging flag. -/
def recoverReminder (cfg : Config) (env : RecoveryEnv)
    (operation : OperationLog) (st : LogState) :
    Except String (String × LogState) :=
  let text := operation.target.text
  let data := operation.data.before
  let originalList := jsOrStr operation.metadata.folder "Reminders"
  if jsOrStr text "" == "" then .error "Missing reminder text for recovery"
  else
    let nativeHit :=
      match env.remindersNative with
      | .ok r => r == "native_success"
      | .error _ => false
    if nativeHit then
      .ok ("Reminder \"" ++ jsToStr text ++ "\" recovered natively in list \""
            ++ originalList ++ "\"", st)
    else
      match dueDateOf data with
      | .error e => .error e
      | .ok dueDate =>
        Reminders.add cfg env (jsToStr text) dueDate (some originalList) st

/-- `RecoveryManager.recoverCalendarEvent` (recovery.ts lines 331-346):
no native path; re-create directly from the `before` snapshot, failing
hard when summary or start/end dates are missing. -/
def recoverCalendarEvent (cfg : Config) (env : RecoveryEnv)
    (operation : OperationLog) (st : LogState) :
    Except String (String × LogState) :=
  let summary := operation.target.summary
  let data := operation.data.before
  if jsOrStr summary "" == "" || !optTruthy (optChain data "startDate")
      || !optTruthy (optChain data "endDate") then
    .error "Missing calendar event data for recovery"
  else
    match optChain data "startDate", optChain data "endDate" with
    | some sd, some ed =>
      Calendar.createEvent cfg env (jsToStr summary) sd ed
        (optChain data "calendar") (optChain data "location") st
    | _, _ => .error "Missing calendar event data for recovery"

/-- The transient outcome of one `recover` call. -/
structure Outcome where
  success : Bool
  message : String
  newOperationId : Option String := none

/-- The synthetic audit entry appended by `recover` after a successful
native-or-fallback restoration (recovery.ts lines 133-147, 152-166,
171-184); the calendar branch passes no `folder`. -/
def logRestoration (cfg : Config) (env : RecoveryEnv) (app : App)
    (operation : OperationLog) (st : LogState) : String × LogState × Nat :=
  OperationLogger.log cfg env.envUser env.appendFails env.now
    .create app operation.target
    { after := operation.data.before }
    { confirmed := some true
      folder := if app = .calendar then none else operation.metadata.folder
      user := some (jsToStr (jsOrOpt operation.metadata.user env.envUser)
                    ++ " (via recovery)") } st

/-- The entry `logRestoration` asks the logger to build: the synthetic
Create audit record of a successful recovery. -/
def restorationEntry (env : RecoveryEnv) (app : App)
    (operation : OperationLog) (n : Nat) : OperationLog :=
  OperationLogger.mkEntry env.envUser env.now .create app operation.target
    { after := operation.data.before }
    { confirmed := some true
      folder := if app = .calendar then none else operation.metadata.folder
      user := some (jsToStr (jsOrOpt operation.metadata.user env.envUser)
                    ++ " (via recovery)") } n

/-- `RecoveryManager.recover` (recovery.ts lines 91-205).  Besides the
outcome and the new log state it returns the number of log lookups
(`getOperation` invocations) the call performed. -/
def recover (cfg : Config) (env : RecoveryEnv)
    (operationId confirmId : String) (st : LogState) :
    Outcome × LogState × Nat :=
  if operationId ≠ confirmId then
    ({ success := false
       message := "Recovery cancelled: Confirmation ID \"" ++ confirmId
         ++ "\" does not match \"" ++ operationId
         ++ "\". To recover, you must provide the exact operation ID as confirmation." },
      st, 0)
  else
    match getRecoveryDetails operationId st.file with
    | none =>
      ({ success := false
         message := "Operation " ++ operationId ++ " not found" }, st, 1)
    | some details =>
      if !details.canRecover then
        ({ success := false
           message := "Cannot recover: " ++ jsToStr details.reason }, st, 1)
      else
        let operation := details.operation
        match operation.app with
        | .notes =>
          match recoverNote cfg env operation st with
          | .error e =>
            ({ success := false, message := "Recovery failed: " ++ e }, st, 1)
          | .ok (result, st1) =>
            let r := logRestoration cfg env .notes operation st1
            ({ success := true
               message := "Successfully recovered: " ++ result
               newOperationId := some r.1 }, r.2.1, 1)
        | .reminders =>
          match recoverReminder cfg env operation st with
          | .error e =>
            ({ success := false, message := "Recovery failed: " ++ e }, st, 1)
          | .ok (result, st1) =>
            let r := logRestoration cfg env .reminders operation st1
            ({ success := true
               message := "Successfully recovered: " ++ result
               newOperationId := some r.1 }, r.2.1, 1)
        | .calendar =>
          match recoverCalendarEvent cfg env operation st with
          | .error e =>
            ({ success := false, message := "Recovery failed: " ++ e }, st, 1)
          | .ok (result, st1) =>
            let r := logRestoration cfg env .calendar operation st1
            ({ success := true
               message := "Successfully recovered: " ++ result
               newOperationId := some r.1 }, r.2.1, 1)
        | .contacts =>
          ({ success := false
             message := "Recovery not supported for app: " ++ App.str .contacts },
            st, 1)

end RecoveryManager

/-! ## Concrete fixtures used by counterexamples and witnesses -/

/-- Projection used to compare file order without snapshot equality. -/
def lineId (l : Line) : Option String := (parseLine l).map (fun e => e.id)

/-- An update entry with a backup snapshot, timestamp 1. -/
def entryE1 : OperationLog :=
  { id := "e1", timestamp := 1, operation := .update, app := .notes,
    target := { title := some "n1" },
    data := { before := some (.vstr "a"), after := some (.vstr "b") },
    metadata := {} }

/-- An update entry with a backup snapshot, timestamp 2. -/
def entryE2 : OperationLog :=
  { id := "e2", timestamp := 2, operation := .update, app := .notes,
    target := { title := some "n2" },
    data := { before := some (.vstr "c"), after := some (.vstr "d") },
    metadata := {} }

/-- An entry far outside any retention window (timestamp -10). -/
def entryOld : OperationLog :=
  { id := "old", timestamp := -10, operation := .delete, app := .notes,
    target := { title := some "n0" },
    data := { before := some (.vstr "z") },
    metadata := {} }

/-- Log file in append order: e1, then e2, then the out-of-window entry. -/
def fileC3 : List Line := [.entry entryE1, .entry entryE2, .entry entryOld]

/-- Log file with a malformed line plus one fresh and one stale entry. -/
def fileC10 : List Line :=
  [.malformed "not json", .entry entryE2, .entry entryOld]

/-- Older entry whose id has the shared 8-character leading part. -/
def entryP1 : OperationLog :=
  { id := "abcdefgh-1", timestamp := 0, operation := .delete, app := .notes,
    target := { title := some "p1" },
    data := { before := some (.vstr "x") },
    metadata := {} }

/-- Newer entry whose id has the same 8-character leading part. -/
def entryP2 : OperationLog :=
  { id := "abcdefgh-2", timestamp := 1, operation := .delete, app := .notes,
    target := { title := some "p2" },
    data := { before := some (.vstr "y") },
    metadata := {} }

/-- File read order: the older prefix-matching entry first. -/
def fileC4 : List Line := [.entry entryP1, .entry entryP2]

/-- A create-kind entry that nevertheless carries a `before` snapshot. -/
def createWithBefore : OperationLog :=
  { id := "c1", timestamp := 0, operation := .create, app := .notes,
    target := { title := some "n" },
    data := { before := some (.vstr "ghost"), after := some (.vstr "new") },
    metadata := {} }

/-- Log file holding only the anomalous create entry. -/
def fileC6 : List Line := [.entry createWithBefore]

/-- A delete entry without a backup snapshot, timestamps 1..50. -/
def noBackupEntry (i : Nat) : OperationLog :=
  { id := "nb-" ++ toString i, timestamp := (i : Int) + 1,
    operation := .delete, app := .notes,
    target := { title := some "t" }, data := {}, metadata := {} }

/-- A recoverable delete entry older than all fifty no-backup entries. -/
def oldRecoverable : OperationLog :=
  { id := "old-rec", timestamp := 0, operation := .delete, app := .notes,
    target := { title := some "keep-me" },
    data := { before := some (.vstr "snapshot") },
    metadata := {} }

/-- Fifty unrecoverable newer entries followed by the recoverable one. -/
def fileC8 : List Line :=
  ((List.range 50).map (fun i => Line.entry (noBackupEntry i)))
    ++ [Line.entry oldRecoverable]

/-- A reminders delete entry with a backup snapshot. -/
def remDelEntry : OperationLog :=
  { id := "rem-op-1", timestamp := 0, operation := .delete, app := .reminders,
    target := { text := some "Buy milk" },
    data := { before := some (.vobj [("text", .vstr "Buy milk"), ("due", .vstr "2024-01-01")]),
              after := some .vnull },
    metadata := { confirmed := true, folder := some "Chores", user := some "alice" } }

/-- State holding just the reminders delete entry. -/
def stC2 : LogState := { file := [.entry remDelEntry], nextId := 0 }

/-- Environment where native reminder restoration finds no match and the
fallback AppleScript add succeeds. -/
def envC2 : RecoveryEnv :=
  { remindersNative := .ok "no_match", remindersAddExec := .ok "" }

/-- A notes delete entry with a backup snapshot. -/
def noteDelEntry : OperationLog :=
  { id := "note-op-1", timestamp := 0, operation := .delete, app := .notes,
    target := { title := some "Meeting notes" },
    data := { before := some (.vstr "old content"), after := some .vnull },
    metadata := { confirmed := true, folder := some "Work", user := some "alice" } }

/-- State holding just the notes delete entry. -/
def stC9 : LogState := { file := [.entry noteDelEntry], nextId := 0 }

/-- Environment where the native Recently-Deleted restoration succeeds. -/
def envC9 : RecoveryEnv := { notesNative := .ok "native_success" }

/-! ## Theorems -/

open OperationLogger RecoveryManager

/-! ### Properties of the descending-timestamp stable sort -/

/-- Descending order by timestamp (newest first). -/
abbrev SortedDesc (l : List OperationLog) : Prop :=
  l.Pairwise (fun a b => b.timestamp ≤ a.timestamp)

theorem length_insertTsDesc (x : OperationLog) (l : List OperationLog) :
    (insertTsDesc x l).length = l.length + 1 := by
  induction l with
  | nil => rfl
  | cons y ys ih =>
    simp only [insertTsDesc]
    split
    · simp [ih]
    · simp

theorem length_sortTsDesc (l : List OperationLog) :
    (sortTsDesc l).length = l.length := by
  induction l with
  | nil => rfl
  | cons x xs ih => simp [sortTsDesc, length_insertTsDesc, ih]

theorem mem_insertTsDesc {z : OperationLog} (x : OperationLog)
    (l : List OperationLog) : z ∈ insertTsDesc x l ↔ z = x ∨ z ∈ l := by
  induction l with
  | nil => simp [insertTsDesc]
  | cons y ys ih =>
    simp only [insertTsDesc]
    split
    · simp only [List.mem_cons, ih]
      tauto
    · simp only [List.mem_cons]

theorem sortedDesc_insertTsDesc (x : OperationLog) {l : List OperationLog}
    (h : SortedDesc l) : SortedDesc (insertTsDesc x l) := by
  induction l with
  | nil => simp [insertTsDesc]
  | cons y ys ih =>
    obtain ⟨hy, hys⟩ := List.pairwise_cons.mp h
    simp only [insertTsDesc]
    split
    · rename_i hlt
      refine List.Pairwise.cons ?_ (ih hys)
      intro z hz
      rcases (mem_insertTsDesc x ys).mp hz with rfl | hz
      · exact le_of_lt hlt
      · exact hy z hz
    · rename_i hnlt
      refine List.Pairwise.cons ?_ (List.Pairwise.cons hy hys)
      intro z hz
      rcases List.mem_cons.mp hz with rfl | hz
      · exact le_of_not_lt hnlt
      · exact le_trans (hy z hz) (le_of_not_lt hnlt)

theorem sortedDesc_sortTsDesc (l : List OperationLog) :
    SortedDesc (sortTsDesc l) := by
  induction l with
  | nil => exact List.Pairwise.nil
  | cons x xs ih => exact sortedDesc_insertTsDesc x ih

theorem insertTsDesc_eq_cons (x : OperationLog) (l : List OperationLog)
    (h : ∀ z ∈ l, z.timestamp ≤ x.timestamp) : insertTsDesc x l = x :: l := by
  cases l with
  | nil => rfl
  | cons z zs =>
    simp only [insertTsDesc]
    rw [if_neg (not_lt.mpr (h z (List.mem_cons_self z zs)))]

theorem filter_insertTsDesc (p : OperationLog → Bool) (x : OperationLog)
    {l : List OperationLog} (h : SortedDesc l) :
    (insertTsDesc x l).filter p
      = if p x then insertTsDesc x (l.filter p) else l.filter p := by
  induction l with
  | nil =>
    by_cases hpx : p x = true
    · simp [insertTsDesc, hpx]
    · simp [insertTsDesc, hpx]
  | cons y ys ih =>
    obtain ⟨hy, hys⟩ := List.pairwise_cons.mp h
    simp only [insertTsDesc]
    split
    · rename_i hlt
      rw [List.filter_cons, List.filter_cons, ih hys]
      by_cases hpy : p y = true
      · by_cases hpx : p x = true
        · simp [hpy, hpx, insertTsDesc, hlt]
        · simp [hpy, hpx]
      · simp [hpy]
    · rename_i hnlt
      have hall : ∀ z ∈ (y :: ys).filter p, z.timestamp ≤ x.timestamp := by
        intro z hz
        rcases List.mem_cons.mp (List.mem_of_mem_filter hz) with rfl | hz'
        · exact le_of_not_lt hnlt
        · exact le_trans (hy z hz') (le_of_not_lt hnlt)
      by_cases hpx : p x = true
      · rw [insertTsDesc_eq_cons x _ hall]
        simp [List.filter_cons, hpx]
      · simp [List.filter_cons, hpx]

theorem filter_sortTsDesc (p : OperationLog → Bool) (l : List OperationLog) :
    (sortTsDesc l).filter p = sortTsDesc (l.filter p) := by
  induction l with
  | nil => rfl
  | cons x xs ih =>
    simp only [sortTsDesc, List.filter_cons]
    rw [filter_insertTsDesc p x (sortedDesc_sortTsDesc xs), ih]
    by_cases hpx : p x = true
    · simp [hpx, sortTsDesc]
    · simp [hpx, sortTsDesc]

/-- `readLogs` with no options parses, drops malformed lines, and sorts
newest first. -/
theorem readLogs_default (file : List Line) :
    readLogs {} file = sortTsDesc (file.filterMap parseLine) := rfl

/-- C1: with `operationId ≠ confirmId`, `recover` returns `success = false`
with a message naming both ids, performs no log lookup (the read counter
is `0`, the state is untouched), and the outcome does not depend on the
log-file content. -/
theorem recover_confirm_mismatch (cfg : Config) (env : RecoveryEnv)
    (st : LogState) (operationId confirmId : String)
    (h : operationId ≠ confirmId) :
    (recover cfg env operationId confirmId st).1.success = false ∧
    (recover cfg env operationId confirmId st).2.2 = 0 ∧
    (recover cfg env operationId confirmId st).2.1 = st ∧
    (∃ a b, (recover cfg env operationId confirmId st).1.message
      = a ++ confirmId ++ b) ∧
    (∃ a b, (recover cfg env operationId confirmId st).1.message
      = a ++ operationId ++ b) ∧
    (∀ st' : LogState, (recover cfg env operationId confirmId st').1
      = (recover cfg env operationId confirmId st).1) := by
  simp only [recover, if_pos h]
  refine ⟨trivial, trivial, trivial, ?_, ?_, fun _ => trivial⟩
  · exact ⟨"Recovery cancelled: Confirmation ID \"",
      "\" does not match \"" ++ operationId
        ++ "\". To recover, you must provide the exact operation ID as confirmation.",
      by simp [String.append_assoc]⟩
  · exact ⟨"Recovery cancelled: Confirmation ID \"" ++ confirmId
        ++ "\" does not match \"",
      "\". To recover, you must provide the exact operation ID as confirmation.",
      by simp [String.append_assoc]⟩

/-- Witness for C1 at the concrete mismatching pair `("a", "b")`. -/
theorem recover_confirm_mismatch_witness :
    (recover ⟨true⟩ {} "a" "b" ⟨[], 0⟩).1.success = false ∧
    (recover ⟨true⟩ {} "a" "b" ⟨[], 0⟩).2.2 = 0 := by
  have h := recover_confirm_mismatch ⟨true⟩ {} ⟨[], 0⟩ "a" "b" (by decide)
  exact ⟨h.1, h.2.1⟩

/-- C7: `log` with logging disabled performs no file write and returns
the empty id; an injected disk failure during the append is caught (the
`try` block is `logTry`, the `catch` is `log`'s error arm) and yields
the empty id with the file unchanged — `log` itself is total, so the
failure never reaches its caller. -/
theorem log_disabled_or_failure_returns_empty (cfg : Config)
    (envUser : Option String) (ioFails : Bool) (now : Int)
    (operation : OpKind) (app : App) (target : Target) (data : OpData)
    (meta : PartialMeta) (st : LogState) :
    (cfg.loggingEnabled = false →
      log cfg envUser ioFails now operation app target data meta st
        = ("", st, 0)) ∧
    (ioFails = true →
      (log cfg envUser ioFails now operation app target data meta st).1 = ""
      ∧ (log cfg envUser ioFails now operation app target data meta st).2.1
        = st) := by
  constructor
  · intro h
    simp [log, h]
  · intro h
    by_cases he : cfg.loggingEnabled
    · simp [log, logTry, h, he]
    · simp [log, logTry, h, Bool.of_not_eq_true he]

/-- Witness for C7: disabled logging on a concrete call is a no-op, and
a failing append on a concrete call returns the empty id. -/
theorem log_disabled_or_failure_returns_empty_witness :
    log ⟨false⟩ none false 0 .create .notes {} {} {} ⟨[], 0⟩ = ("", ⟨[], 0⟩, 0)
    ∧ (log ⟨true⟩ none true 0 .create .notes {} {} {} ⟨[], 0⟩).1 = "" := by
  refine ⟨(log_disabled_or_failure_returns_empty ⟨false⟩ none false 0
      .create .notes {} {} {} ⟨[], 0⟩).1 rfl, ?_⟩
  exact ((log_disabled_or_failure_returns_empty ⟨true⟩ none true 0
      .create .notes {} {} {} ⟨[], 0⟩).2 rfl).1

/-- C10: whenever retention pruning removes at least one entry, the
rewritten file is built solely from the successfully parsed entries, so
no malformed line survives the rewrite. -/
theorem cleanup_drops_malformed (cutoff : Int) (file : List Line)
    (h : 0 < (cleanupOldLogs cutoff file).1) :
    ∀ l ∈ (cleanupOldLogs cutoff file).2, ∃ e, l = Line.entry e := by
  intro l hl
  have h2 : (cleanupOldLogs cutoff file).2
      = if (readLogs {} file).length
            - ((readLogs {} file).filter (fun x => cutoff ≤ x.timestamp)).length
            > 0
        then ((readLogs {} file).filter
          (fun x => cutoff ≤ x.timestamp)).map Line.entry
        else file := rfl
  have h1 : (cleanupOldLogs cutoff file).1
      = (readLogs {} file).length
        - ((readLogs {} file).filter (fun x => cutoff ≤ x.timestamp)).length :=
    rfl
  rw [h2, if_pos (h1 ▸ h)] at hl
  obtain ⟨e, _, rfl⟩ := List.mem_map.mp hl
  exact ⟨e, rfl⟩

/-- Witness for C10: pruning `fileC10` (one malformed line, one fresh
entry, one stale entry) at cutoff 0 removes one entry, and every line of
the rewritten file is a parsed entry — the malformed line is gone. -/
theorem cleanup_drops_malformed_witness :
    0 < (cleanupOldLogs 0 fileC10).1 ∧
    ∀ l ∈ (cleanupOldLogs 0 fileC10).2, ∃ e, l = Line.entry e :=
  ⟨by decide, cleanup_drops_malformed 0 fileC10 (by decide)⟩

/-- C3 counterexample: the claim says survivors keep their original
relative file order, but the rewrite uses the query result, which is
sorted newest first: in `fileC3` the survivors appear as `e1, e2` yet
the rewritten file holds `e2, e1`. -/
theorem cleanup_order_counterexample :
    (cleanupOldLogs 0 fileC3).1 = 1 ∧
    ((cleanupOldLogs 0 fileC3).2.map lineId) = [some "e2", some "e1"] ∧
    (fileC3.map lineId) = [some "e1", some "e2", some "old"] := by
  refine ⟨rfl, rfl, rfl⟩

/-- C3 amended: pruning removes exactly the parsed entries strictly
older than the cutoff and returns their count; when anything is removed
the surviving entries are rewritten in timestamp-descending (newest
first, stable) order — not in their original file order. -/
theorem cleanup_count_and_sorted_rewrite (cutoff : Int) (file : List Line) :
    (cleanupOldLogs cutoff file).1
      = (file.filterMap parseLine).length
        - ((file.filterMap parseLine).filter
            (fun x => cutoff ≤ x.timestamp)).length ∧
    (0 < (cleanupOldLogs cutoff file).1 →
      (cleanupOldLogs cutoff file).2
        = (sortTsDesc ((file.filterMap parseLine).filter
            (fun x => cutoff ≤ x.timestamp))).map Line.entry) := by
  have h1 : (cleanupOldLogs cutoff file).1
      = (readLogs {} file).length
        - ((readLogs {} file).filter (fun x => cutoff ≤ x.timestamp)).length :=
    rfl
  have h2 : (cleanupOldLogs cutoff file).2
      = if (readLogs {} file).length
            - ((readLogs {} file).filter (fun x => cutoff ≤ x.timestamp)).length
            > 0
        then ((readLogs {} file).filter
          (fun x => cutoff ≤ x.timestamp)).map Line.entry
        else file := rfl
  constructor
  · rw [h1, readLogs_default, filter_sortTsDesc, length_sortTsDesc,
      length_sortTsDesc]
  · intro h
    rw [h2, if_pos (h1 ▸ h), readLogs_default, filter_sortTsDesc]

/-- Every element of the sort is an element of the input and back. -/
theorem mem_sortTsDesc {z : OperationLog} (l : List OperationLog) :
    z ∈ sortTsDesc l ↔ z ∈ l := by
  induction l with
  | nil => simp [sortTsDesc]
  | cons x xs ih => simp [sortTsDesc, mem_insertTsDesc, ih]

/-- A successful `find?` splits its list at the first hit. -/
theorem find?_split {α : Type} (p : α → Bool) (l : List α) (a : α)
    (h : l.find? p = some a) :
    p a = true ∧ ∃ pre post, l = pre ++ a :: post ∧ ∀ x ∈ pre, p x = false := by
  induction l with
  | nil => simp [List.find?] at h
  | cons y ys ih =>
    by_cases hy : p y = true
    · rw [List.find?_cons_of_pos _ hy] at h
      obtain rfl := Option.some.inj h
      exact ⟨hy, [], ys, rfl, by simp⟩
    · rw [List.find?_cons_of_neg _ hy] at h
      obtain ⟨hpa, pre, post, rfl, hpre⟩ := ih h
      refine ⟨hpa, y :: pre, post, rfl, ?_⟩
      intro x hx
      rcases List.mem_cons.mp hx with rfl | hx
      · exact Bool.of_not_eq_true hy
      · exact hpre x hx

/-- The match predicate of `getOperation`, spelled out. -/
theorem idMatches_iff (id : String) (x : OperationLog) :
    idMatches id x = true
      ↔ (x.id = id ∨ (8 ≤ id.length ∧ strStartsWith x.id id = true)) := by
  simp [idMatches]

/-- C4 counterexample: the claim says a prefix lookup returns the first
match in the unsorted file read order, but `getOperation` searches the
timestamp-sorted (newest first) query result: for `fileC4`, the file
read order would give `abcdefgh-1`, the code returns `abcdefgh-2`. -/
theorem getOperation_order_counterexample :
    ((getOperation "abcdefgh" fileC4).map (fun e => e.id))
      = some "abcdefgh-2" ∧
    (((fileC4.filterMap parseLine).find? (idMatches "abcdefgh")).map
        (fun e => e.id)) = some "abcdefgh-1" ∧
    ("abcdefgh-2" : String) ≠ "abcdefgh-1" :=
  ⟨by decide, by decide, by decide⟩

/-- C4 amended: `getOperation` returns the first entry — in the
timestamp-descending (newest first) query order, not the unsorted read
order — whose id matches exactly or, for a supplied id of at least 8
characters, by prefix; and `none` exactly when no entry matches. -/
theorem getOperation_first_match_sorted (id : String) (file : List Line) :
    (∀ r, getOperation id file = some r →
      (r.id = id ∨ (8 ≤ id.length ∧ strStartsWith r.id id = true)) ∧
      ∃ pre post,
        sortTsDesc (file.filterMap parseLine) = pre ++ r :: post ∧
        ∀ x ∈ pre,
          ¬(x.id = id ∨ (8 ≤ id.length ∧ strStartsWith x.id id = true))) ∧
    (getOperation id file = none →
      ∀ x ∈ file.filterMap parseLine,
        ¬(x.id = id ∨ (8 ≤ id.length ∧ strStartsWith x.id id = true))) := by
  constructor
  · intro r hr
    rw [getOperation, readLogs_default] at hr
    obtain ⟨hpa, pre, post, heq, hpre⟩ := find?_split _ _ _ hr
    refine ⟨(idMatches_iff id r).mp hpa, pre, post, heq, ?_⟩
    intro x hx hcon
    have := hpre x hx
    rw [← idMatches_iff id x] at hcon
    simp [hcon] at this
  · intro hn x hx hcon
    rw [getOperation, readLogs_default, List.find?_eq_none] at hn
    have hmem : x ∈ sortTsDesc (file.filterMap parseLine) :=
      (mem_sortTsDesc _).mpr hx
    exact hn x hmem ((idMatches_iff id x).mpr hcon)

/-- Witness for C4's amended theorem: the prefix lookup on `fileC4`
returns the newest matching entry, with no earlier sorted match. -/
theorem getOperation_first_match_sorted_witness :
    (entryP2.id = "abcdefgh"
      ∨ (8 ≤ ("abcdefgh" : String).length
          ∧ strStartsWith entryP2.id "abcdefgh" = true)) ∧
    ∃ pre post,
      sortTsDesc (fileC4.filterMap parseLine) = pre ++ entryP2 :: post ∧
      ∀ x ∈ pre,
        ¬(x.id = "abcdefgh"
          ∨ (8 ≤ ("abcdefgh" : String).length
              ∧ strStartsWith x.id "abcdefgh" = true)) :=
  (getOperation_first_match_sorted "abcdefgh" fileC4).1 entryP2 rfl

/-- C6 counterexample: `listRecoverableOperations` filters only on the
presence of `data.before`, so a Create-kind entry carrying a `before`
snapshot is listed as recoverable, against the claimed invariant. -/
theorem listRecoverable_create_counterexample :
    ((listRecoverableOperations {} fileC6).map (fun e => e.id)) = ["c1"] ∧
    createWithBefore.operation = .create ∧
    createWithBefore.data.before.isSome = true ∧
    createWithBefore.id = "c1" :=
  ⟨rfl, rfl, rfl, rfl⟩

/-- C6 amended: every entry returned by `listRecoverableOperations` has
`data.before` defined (entries without it are excluded), but the
operation kind is not constrained — the Create exclusion lives only in
`getRecoveryDetails`. -/
theorem listRecoverable_before_defined (opts : ListOptions)
    (file : List Line) :
    ∀ l ∈ listRecoverableOperations opts file,
      l.data.before.isSome = true := by
  intro l hl
  exact (List.mem_filter.mp hl).2

/-- Witness for C6's amended theorem on `fileC6`. -/
theorem listRecoverable_before_defined_witness :
    createWithBefore.data.before.isSome = true :=
  listRecoverable_before_defined {} fileC6 createWithBefore
    (by rw [show listRecoverableOperations {} fileC6 = [createWithBefore]
          from rfl]
        exact List.mem_singleton.mpr rfl)

/-- C8: the default limit of 50 is applied to the sorted query result
before the `data.before` filter, so on `fileC8` (fifty newer entries
without a snapshot hiding one older recoverable entry)
`listRecoverableOperations` returns nothing although a recoverable
entry exists in the log. -/
theorem listRecoverable_limit_before_filter :
    listRecoverableOperations {} fileC8 = [] ∧
    oldRecoverable ∈ fileC8.filterMap parseLine ∧
    oldRecoverable.data.before.isSome = true ∧
    oldRecoverable.operation = .delete ∧
    (fileC8.filterMap parseLine).length = 51 ∧
    limitOr50 none = 50 := by
  refine ⟨rfl, ?_, rfl, rfl, rfl, rfl⟩
  have h : fileC8.filterMap parseLine
      = ((List.range 50).map noBackupEntry) ++ [oldRecoverable] := rfl
  rw [h]
  exact List.mem_append_right _ (List.mem_singleton.mpr rfl)

/-! ### State-shape lemmas for the recovery paths -/

/-- Disabled logging is a complete no-op. -/
theorem log_disabled (envUser : Option String) (ioFails : Bool) (now : Int)
    (operation : OpKind) (app : App) (target : Target) (data : OpData)
    (meta : PartialMeta) (st : LogState) :
    log ⟨false⟩ envUser ioFails now operation app target data meta st
      = ("", st, 0) := rfl

/-- Enabled logging with a healthy disk appends exactly the built entry
and returns its id. -/
theorem log_enabled_ok (envUser : Option String) (now : Int)
    (operation : OpKind) (app : App) (target : Target) (data : OpData)
    (meta : PartialMeta) (st : LogState) :
    log ⟨true⟩ envUser false now operation app target data meta st
      = (genId st.nextId,
         ⟨st.file ++ [Line.entry (mkEntry envUser now operation app target
            data meta st.nextId)], st.nextId + 1⟩, 1) := rfl

/-- Whatever the configuration, `log` either leaves the state alone or
appends exactly its built entry. -/
theorem log_state_shape (cfg : Config) (envUser : Option String)
    (ioFails : Bool) (now : Int) (operation : OpKind) (app : App)
    (target : Target) (data : OpData) (meta : PartialMeta) (st : LogState) :
    (log cfg envUser ioFails now operation app target data meta st).2.1 = st
    ∨ (log cfg envUser ioFails now operation app target data meta st).2.1.file
        = st.file ++ [Line.entry (mkEntry envUser now operation app target
            data meta st.nextId)] := by
  by_cases hc : cfg.loggingEnabled = true
  · by_cases hio : ioFails = true
    · left
      simp [log, logTry, hc, hio]
    · right
      simp [log, logTry, hc, Bool.of_not_eq_true hio]
  · left
    simp [log, Bool.of_not_eq_true hc]

/-- `Notes.create` with `skipLog` set never touches the log state. -/
theorem notesCreate_skip_state (cfg : Config) (env : RecoveryEnv)
    (title content : String) (folder : Option String) (st : LogState)
    (r : String) (st1 : LogState)
    (h : Notes.create cfg env title content folder true st = .ok (r, st1)) :
    st1 = st := by
  simp only [Notes.create] at h
  cases henv : env.notesCreateExec <;> rw [henv] at h
  · cases h
  · simp only [Bool.not_true, Bool.false_eq_true, if_false, Except.ok.injEq,
      Prod.mk.injEq] at h
    exact h.2.symm

/-- `recoverNote` never changes the log state on success: the native
path does not log and the fallback passes `skipLog: true`. -/
theorem recoverNote_state (cfg : Config) (env : RecoveryEnv)
    (operation : OperationLog) (st : LogState) (r : String) (st1 : LogState)
    (h : recoverNote cfg env operation st = .ok (r, st1)) : st1 = st := by
  simp only [recoverNote] at h
  split at h
  · cases h
  · split at h
    · simp only [Except.ok.injEq, Prod.mk.injEq] at h
      exact h.2.symm
    · split at h
      · split at h
        · cases h
        · exact notesCreate_skip_state cfg env _ _ _ st r st1 h
      · cases h

/-- `Reminders.add` either leaves the state alone (logging disabled or
append failure) or appends one entry whose `confirmed` flag is false. -/
theorem remindersAdd_state (cfg : Config) (env : RecoveryEnv)
    (text : String) (due : Option Val) (listName : Option String)
    (st : LogState) (r : String) (st1 : LogState)
    (h : Reminders.add cfg env text due listName st = .ok (r, st1)) :
    st1 = st ∨ ∃ e : OperationLog,
      st1.file = st.file ++ [Line.entry e] ∧ e.metadata.confirmed = false := by
  simp only [Reminders.add] at h
  cases henv : env.remindersAddExec <;> rw [henv] at h
  · cases h
  · simp only [Except.ok.injEq, Prod.mk.injEq] at h
    rcases log_state_shape cfg env.envUser env.appendFails env.now .create
        .reminders { text := some text }
        { after := some (remAddAfter text due) }
        { folder := some (jsOrStr listName env.defaultRemindersList) } st with
      hkeep | happend
    · left
      rw [← h.2, hkeep]
    · right
      exact ⟨mkEntry env.envUser env.now .create .reminders
          { text := some text } { after := some (remAddAfter text due) }
          { folder := some (jsOrStr listName env.defaultRemindersList) }
          st.nextId,
        by rw [← h.2, happend], rfl⟩

/-- `Calendar.createEvent` either leaves the state alone or appends one
entry whose `confirmed` flag is false. -/
theorem calendarCreate_state (cfg : Config) (env : RecoveryEnv)
    (summary : String) (startDate endDate : Val)
    (calendarName location : Option Val) (st : LogState) (r : String)
    (st1 : LogState)
    (h : Calendar.createEvent cfg env summary startDate endDate calendarName
          location st = .ok (r, st1)) :
    st1 = st ∨ ∃ e : OperationLog,
      st1.file = st.file ++ [Line.entry e] ∧ e.metadata.confirmed = false := by
  simp only [Calendar.createEvent] at h
  cases henv : env.calendarCreateExec <;> rw [henv] at h
  · cases h
  · simp only [Except.ok.injEq, Prod.mk.injEq] at h
    rcases log_state_shape cfg env.envUser env.appendFails env.now .create
        .calendar { summary := some summary }
        { after := some (calAddAfter startDate endDate
            (calTarget calendarName env.defaultCalendar) location) }
        { folder := some (calTarget calendarName env.defaultCalendar).jsString }
        st with hkeep | happend
    · left
      rw [← h.2, hkeep]
    · right
      exact ⟨mkEntry env.envUser env.now .create .calendar
          { summary := some summary }
          { after := some (calAddAfter startDate endDate
              (calTarget calendarName env.defaultCalendar) location) }
          { folder := some (calTarget calendarName env.defaultCalendar).jsString }
          st.nextId,
        by rw [← h.2, happend], rfl⟩

/-- On success `recoverReminder` leaves the state alone (native path) or
appends one unconfirmed entry (the fallback `Reminders.add` audit). -/
theorem recoverReminder_state (cfg : Config) (env : RecoveryEnv)
    (operation : OperationLog) (st : LogState) (r : String) (st1 : LogState)
    (h : recoverReminder cfg env operation st = .ok (r, st1)) :
    st1 = st ∨ ∃ e : OperationLog,
      st1.file = st.file ++ [Line.entry e] ∧ e.metadata.confirmed = false := by
  simp only [recoverReminder] at h
  split at h
  · cases h
  · split at h
    · left
      simp only [Except.ok.injEq, Prod.mk.injEq] at h
      exact h.2.symm
    · split at h
      · cases h
      · exact remindersAdd_state cfg env _ _ _ st r st1 h

/-- On success `recoverCalendarEvent` leaves the state alone or appends
one unconfirmed entry (the `Calendar.createEvent` audit). -/
theorem recoverCalendar_state (cfg : Config) (env : RecoveryEnv)
    (operation : OperationLog) (st : LogState) (r : String) (st1 : LogState)
    (h : recoverCalendarEvent cfg env operation st = .ok (r, st1)) :
    st1 = st ∨ ∃ e : OperationLog,
      st1.file = st.file ++ [Line.entry e] ∧ e.metadata.confirmed = false := by
  simp only [recoverCalendarEvent] at h
  split at h
  · cases h
  · split at h
    · exact calendarCreate_state cfg env _ _ _ _ _ st r st1 h
    · cases h

/-- The value `logRestoration` takes when logging is enabled and the
append succeeds: it appends exactly the restoration entry. -/
theorem logRestoration_ok (env : RecoveryEnv) (app : App)
    (operation : OperationLog) (st : LogState)
    (hfail : env.appendFails = false) :
    logRestoration ⟨true⟩ env app operation st
      = (genId st.nextId,
         ⟨st.file
            ++ [Line.entry (restorationEntry env app operation st.nextId)],
          st.nextId + 1⟩, 1) := by
  simp only [logRestoration, hfail, log_enabled_ok, restorationEntry]

/-- The restoration entry has the shape the audit trail promises. -/
theorem restorationEntry_props (env : RecoveryEnv) (app : App)
    (operation : OperationLog) (n : Nat) :
    (restorationEntry env app operation n).operation = .create ∧
    (restorationEntry env app operation n).app = app ∧
    (restorationEntry env app operation n).target = operation.target ∧
    (restorationEntry env app operation n).data.after
      = operation.data.before ∧
    (restorationEntry env app operation n).metadata.confirmed = true ∧
    (restorationEntry env app operation n).metadata.user
      = some (jsToStr (jsOrOpt operation.metadata.user env.envUser)
              ++ " (via recovery)") :=
  ⟨rfl, rfl, rfl, rfl, rfl, rfl⟩

/-- The value `logRestoration` takes when logging is disabled. -/
theorem logRestoration_disabled (env : RecoveryEnv) (app : App)
    (operation : OperationLog) (st : LogState) :
    logRestoration ⟨false⟩ env app operation st = ("", st, 0) := rfl

/-- With logging disabled `Reminders.add` cannot change the log state. -/
theorem remindersAdd_disabled_state (env : RecoveryEnv) (text : String)
    (due : Option Val) (listName : Option String) (st : LogState)
    (r : String) (st1 : LogState)
    (h : Reminders.add ⟨false⟩ env text due listName st = .ok (r, st1)) :
    st1 = st := by
  simp only [Reminders.add, log_disabled] at h
  cases henv : env.remindersAddExec <;> rw [henv] at h
  · cases h
  · simp only [Except.ok.injEq, Prod.mk.injEq] at h
    exact h.2.symm

/-- With logging disabled `Calendar.createEvent` cannot change the log
state. -/
theorem calendarCreate_disabled_state (env : RecoveryEnv)
    (summary : String) (startDate endDate : Val)
    (calendarName location : Option Val) (st : LogState) (r : String)
    (st1 : LogState)
    (h : Calendar.createEvent ⟨false⟩ env summary startDate endDate
          calendarName location st = .ok (r, st1)) :
    st1 = st := by
  simp only [Calendar.createEvent, log_disabled] at h
  cases henv : env.calendarCreateExec <;> rw [henv] at h
  · cases h
  · simp only [Except.ok.injEq, Prod.mk.injEq] at h
    exact h.2.symm

/-- With logging disabled a successful `recoverReminder` leaves the log
state unchanged. -/
theorem recoverReminder_disabled_state (env : RecoveryEnv)
    (operation : OperationLog) (st : LogState) (r : String) (st1 : LogState)
    (h : recoverReminder ⟨false⟩ env operation st = .ok (r, st1)) :
    st1 = st := by
  simp only [recoverReminder] at h
  split at h
  · cases h
  · split at h
    · simp only [Except.ok.injEq, Prod.mk.injEq] at h
      exact h.2.symm
    · split at h
      · cases h
      · exact remindersAdd_disabled_state env _ _ _ st r st1 h

/-- With logging disabled a successful `recoverCalendarEvent` leaves the
log state unchanged. -/
theorem recoverCalendar_disabled_state (env : RecoveryEnv)
    (operation : OperationLog) (st : LogState) (r : String) (st1 : LogState)
    (h : recoverCalendarEvent ⟨false⟩ env operation st = .ok (r, st1)) :
    st1 = st := by
  simp only [recoverCalendarEvent] at h
  split at h
  · cases h
  · split at h
    · exact calendarCreate_disabled_state env _ _ _ _ _ st r st1 h
    · cases h

/-- C2 (code bug): a successful reminders fallback recovery appends TWO
log entries, not one: `Reminders.add` has no skip-logging option, so it
writes its own (unconfirmed) audit line before the Recovery Manager
writes the synthetic confirmed entry.  On `stC2` (one delete entry) the
file grows from 1 line to 3. -/
theorem reminders_fallback_double_log :
    (recover ⟨true⟩ envC2 "rem-op-1" "rem-op-1" stC2).1.success = true ∧
    stC2.file.length = 1 ∧
    (recover ⟨true⟩ envC2 "rem-op-1" "rem-op-1" stC2).2.1.file.length = 3 ∧
    ((recover ⟨true⟩ envC2 "rem-op-1" "rem-op-1" stC2).2.1.file.map
        (fun l => (parseLine l).map (fun e => e.metadata.confirmed)))
      = [some true, some false, some true] ∧
    (recover ⟨true⟩ envC2 "rem-op-1" "rem-op-1" stC2).1.newOperationId
      = some "uuid-1" :=
  ⟨rfl, rfl, rfl, rfl, rfl⟩

/-- C9: with logging disabled, `recover` can still succeed, but then its
`newOperationId` is the empty string and the log state is unchanged —
the external application is mutated with no audit entry appended. -/
theorem recover_disabled_logging_spec (env : RecoveryEnv) (st : LogState)
    (operationId confirmId : String)
    (hs : (recover ⟨false⟩ env operationId confirmId st).1.success = true) :
    (recover ⟨false⟩ env operationId confirmId st).1.newOperationId = some ""
    ∧ (recover ⟨false⟩ env operationId confirmId st).2.1 = st := by
  by_cases hid : operationId ≠ confirmId
  · have hval : (recover ⟨false⟩ env operationId confirmId st).1.success
        = false := by
      simp only [recover, if_pos hid]
    rw [hval] at hs
    cases hs
  · rcases hdet : getRecoveryDetails operationId st.file with _ | d
    · have hval : (recover ⟨false⟩ env operationId confirmId st).1.success
          = false := by
        simp only [recover, if_neg hid, hdet]
      rw [hval] at hs
      cases hs
    · by_cases hcr : (!d.canRecover) = true
      · have hval : (recover ⟨false⟩ env operationId confirmId st).1.success
            = false := by
          simp only [recover, if_neg hid, hdet, if_pos hcr]
        rw [hval] at hs
        cases hs
      · cases happ : d.operation.app with
        | notes =>
          cases hrec : recoverNote ⟨false⟩ env d.operation st with
          | error e =>
            have hval : (recover ⟨false⟩ env operationId confirmId
                st).1.success = false := by
              simp only [recover, if_neg hid, hdet, if_neg hcr, happ, hrec]
            rw [hval] at hs
            cases hs
          | ok v =>
            obtain ⟨res, st1⟩ := v
            have hst : st1 = st :=
              recoverNote_state ⟨false⟩ env d.operation st res st1 hrec
            have hval : recover ⟨false⟩ env operationId confirmId st
                = ({ success := true,
                     message := "Successfully recovered: " ++ res,
                     newOperationId := some "" }, st1, 1) := by
              simp only [recover, if_neg hid, hdet, if_neg hcr, happ, hrec,
                logRestoration_disabled]
            rw [hval]
            exact ⟨rfl, hst⟩
        | reminders =>
          cases hrec : recoverReminder ⟨false⟩ env d.operation st with
          | error e =>
            have hval : (recover ⟨false⟩ env operationId confirmId
                st).1.success = false := by
              simp only [recover, if_neg hid, hdet, if_neg hcr, happ, hrec]
            rw [hval] at hs
            cases hs
          | ok v =>
            obtain ⟨res, st1⟩ := v
            have hst : st1 = st :=
              recoverReminder_disabled_state env d.operation st res st1 hrec
            have hval : recover ⟨false⟩ env operationId confirmId st
                = ({ success := true,
                     message := "Successfully recovered: " ++ res,
                     newOperationId := some "" }, st1, 1) := by
              simp only [recover, if_neg hid, hdet, if_neg hcr, happ, hrec,
                logRestoration_disabled]
            rw [hval]
            exact ⟨rfl, hst⟩
        | calendar =>
          cases hrec : recoverCalendarEvent ⟨false⟩ env d.operation st with
          | error e =>
            have hval : (recover ⟨false⟩ env operationId confirmId
                st).1.success = false := by
              simp only [recover, if_neg hid, hdet, if_neg hcr, happ, hrec]
            rw [hval] at hs
            cases hs
          | ok v =>
            obtain ⟨res, st1⟩ := v
            have hst : st1 = st :=
              recoverCalendar_disabled_state env d.operation st res st1 hrec
            have hval : recover ⟨false⟩ env operationId confirmId st
                = ({ success := true,
                     message := "Successfully recovered: " ++ res,
                     newOperationId := some "" }, st1, 1) := by
              simp only [recover, if_neg hid, hdet, if_neg hcr, happ, hrec,
                logRestoration_disabled]
            rw [hval]
            exact ⟨rfl, hst⟩
        | contacts =>
          have hval : (recover ⟨false⟩ env operationId confirmId
              st).1.success = false := by
            simp only [recover, if_neg hid, hdet, if_neg hcr, happ]
          rw [hval] at hs
          cases hs

/-- Witness for C9: with logging disabled, a native notes recovery on
`stC9` succeeds, returns the empty id, and leaves the file alone. -/
theorem recover_disabled_logging_spec_witness :
    (recover ⟨false⟩ envC9 "note-op-1" "note-op-1" stC9).1.success = true ∧
    (recover ⟨false⟩ envC9 "note-op-1" "note-op-1" stC9).1.newOperationId
      = some "" ∧
    (recover ⟨false⟩ envC9 "note-op-1" "note-op-1" stC9).2.1 = stC9 := by
  have h := recover_disabled_logging_spec envC9 stC9 "note-op-1" "note-op-1"
    rfl
  exact ⟨rfl, h.1, h.2⟩

/-- C5 counterexample: with logging disabled a recover on a recoverable
entry still succeeds, yet no synthetic Create entry is appended (the
file keeps its single line) and no new id exists — refuting the claim's
unconditional "exactly one synthetic entry is appended". -/
theorem recover_success_without_audit_counterexample :
    (recover ⟨false⟩ envC9 "note-op-1" "note-op-1" stC9).1.success = true ∧
    (recover ⟨false⟩ envC9 "note-op-1" "note-op-1" stC9).2.1.file.length = 1 ∧
    stC9.file.length = 1 ∧
    (recover ⟨false⟩ envC9 "note-op-1" "note-op-1" stC9).1.newOperationId
      = some "" :=
  ⟨rfl, rfl, rfl, rfl⟩

/-- C5 amended: provided logging is enabled and the append does not
fail, every successful `recover` appends exactly one synthetic audit
entry — kind Create, application and target equal to the original
entry's, `data.after` equal to the original `data.before`,
`metadata.confirmed = true`, actor suffixed " (via recovery)" — and
returns its id as `newOperationId`; any other line the call appends
(the fallback backend's own audit line) has `confirmed = false`. -/
theorem recover_success_single_audit_entry (env : RecoveryEnv)
    (st : LogState) (operationId confirmId : String) (orig : OperationLog)
    (hfail : env.appendFails = false)
    (hget : getOperation operationId st.file = some orig)
    (hs : (recover ⟨true⟩ env operationId confirmId st).1.success = true) :
    ∃ (pre : List Line) (e : OperationLog),
      (recover ⟨true⟩ env operationId confirmId st).2.1.file
        = st.file ++ pre ++ [Line.entry e] ∧
      e.operation = .create ∧ e.app = orig.app ∧ e.target = orig.target ∧
      e.data.after = orig.data.before ∧ e.metadata.confirmed = true ∧
      (∃ u, e.metadata.user = some (u ++ " (via recovery)")) ∧
      (recover ⟨true⟩ env operationId confirmId st).1.newOperationId
        = some e.id ∧
      (∀ e' : OperationLog, Line.entry e' ∈ pre →
        e'.metadata.confirmed = false) := by
  by_cases hid : operationId ≠ confirmId
  · have hval : (recover ⟨true⟩ env operationId confirmId st).1.success
        = false := by
      simp only [recover, if_pos hid]
    rw [hval] at hs
    cases hs
  · by_cases hb : optTruthy orig.data.before = true
    · by_cases hc : orig.operation = .create
      · have hdet : getRecoveryDetails operationId st.file
            = some { operation := orig, canRecover := false,
                     reason := some
                       "Cannot recover create operations (item still exists)" } := by
          simp [getRecoveryDetails, hget, hb, hc]
        have hval : (recover ⟨true⟩ env operationId confirmId st).1.success
            = false := by
          simp [recover, if_neg hid, hdet]
        rw [hval] at hs
        cases hs
      · have hdet : getRecoveryDetails operationId st.file
            = some { operation := orig, canRecover := true } := by
          simp [getRecoveryDetails, hget, hb, hc]
        cases happ : orig.app with
        | notes =>
          cases hrec : recoverNote ⟨true⟩ env orig st with
          | error e =>
            have hval : (recover ⟨true⟩ env operationId confirmId
                st).1.success = false := by
              simp [recover, if_neg hid, hdet, happ, hrec]
            rw [hval] at hs
            cases hs
          | ok v =>
            obtain ⟨res, st1⟩ := v
            have hst : st1 = st :=
              recoverNote_state ⟨true⟩ env orig st res st1 hrec
            have hval : recover ⟨true⟩ env operationId confirmId st
                = ({ success := true,
                     message := "Successfully recovered: " ++ res,
                     newOperationId := some (genId st1.nextId) },
                   ⟨st1.file ++ [Line.entry
                      (restorationEntry env .notes orig st1.nextId)],
                    st1.nextId + 1⟩, 1) := by
              simp [recover, if_neg hid, hdet, happ, hrec,
                logRestoration_ok env .notes orig st1 hfail]
            rw [hval]
            refine ⟨[], restorationEntry env .notes orig st1.nextId,
              ?_, rfl, ?_, rfl, rfl, rfl, ⟨_, rfl⟩, rfl, ?_⟩
            · rw [hst]
              simp
            · rfl
            · intro e' h
              exact absurd h (List.not_mem_nil _)
        | reminders =>
          cases hrec : recoverReminder ⟨true⟩ env orig st with
          | error e =>
            have hval : (recover ⟨true⟩ env operationId confirmId
                st).1.success = false := by
              simp [recover, if_neg hid, hdet, happ, hrec]
            rw [hval] at hs
            cases hs
          | ok v =>
            obtain ⟨res, st1⟩ := v
            have hval : recover ⟨true⟩ env operationId confirmId st
                = ({ success := true,
                     message := "Successfully recovered: " ++ res,
                     newOperationId := some (genId st1.nextId) },
                   ⟨st1.file ++ [Line.entry
                      (restorationEntry env .reminders orig st1.nextId)],
                    st1.nextId + 1⟩, 1) := by
              simp [recover, if_neg hid, hdet, happ, hrec,
                logRestoration_ok env .reminders orig st1 hfail]
            rw [hval]
            rcases recoverReminder_state ⟨true⟩ env orig st res st1 hrec with
              hst | ⟨addE, haddf, haddc⟩
            · refine ⟨[], restorationEntry env .reminders orig st1.nextId,
                ?_, rfl, ?_, rfl, rfl, rfl, ⟨_, rfl⟩, rfl, ?_⟩
              · rw [hst]
                simp
              · rfl
              · intro e' h
                exact absurd h (List.not_mem_nil _)
            · refine ⟨[Line.entry addE],
                restorationEntry env .reminders orig st1.nextId,
                ?_, rfl, ?_, rfl, rfl, rfl, ⟨_, rfl⟩, rfl, ?_⟩
              · rw [haddf]
              · rfl
              · intro e' h
                have h' := List.mem_singleton.mp h
                rw [Line.entry.inj h']
                exact haddc
        | calendar =>
          cases hrec : recoverCalendarEvent ⟨true⟩ env orig st with
          | error e =>
            have hval : (recover ⟨true⟩ env operationId confirmId
                st).1.success = false := by
              simp [recover, if_neg hid, hdet, happ, hrec]
            rw [hval] at hs
            cases hs
          | ok v =>
            obtain ⟨res, st1⟩ := v
            have hval : recover ⟨true⟩ env operationId confirmId st
                = ({ success := true,
                     message := "Successfully recovered: " ++ res,
                     newOperationId := some (genId st1.nextId) },
                   ⟨st1.file ++ [Line.entry
                      (restorationEntry env .calendar orig st1.nextId)],
                    st1.nextId + 1⟩, 1) := by
              simp [recover, if_neg hid, hdet, happ, hrec,
                logRestoration_ok env .calendar orig st1 hfail]
            rw [hval]
            rcases recoverCalendar_state ⟨true⟩ env orig st res st1 hrec with
              hst | ⟨addE, haddf, haddc⟩
            · refine ⟨[], restorationEntry env .calendar orig st1.nextId,
                ?_, rfl, ?_, rfl, rfl, rfl, ⟨_, rfl⟩, rfl, ?_⟩
              · rw [hst]
                simp
              · rfl
              · intro e' h
                exact absurd h (List.not_mem_nil _)
            · refine ⟨[Line.entry addE],
                restorationEntry env .calendar orig st1.nextId,
                ?_, rfl, ?_, rfl, rfl, rfl, ⟨_, rfl⟩, rfl, ?_⟩
              · rw [haddf]
              · rfl
              · intro e' h
                have h' := List.mem_singleton.mp h
                rw [Line.entry.inj h']
                exact haddc
        | contacts =>
          have hval : (recover ⟨true⟩ env operationId confirmId
              st).1.success = false := by
            simp [recover, if_neg hid, hdet, happ]
          rw [hval] at hs
          cases hs
    · have hdet : getRecoveryDetails operationId st.file
          = some { operation := orig, canRecover := false,
                   reason := some
                     "No backup data available for this operation" } := by
        simp [getRecoveryDetails, hget, Bool.of_not_eq_true hb]
      have hval : (recover ⟨true⟩ env operationId confirmId st).1.success
          = false := by
        simp [recover, if_neg hid, hdet]
      rw [hval] at hs
      cases hs

/-- Witness for C5's amended theorem: native notes recovery on `stC9`
with logging enabled. -/
theorem recover_success_single_audit_entry_witness :
    (getOperation "note-op-1" stC9.file = some noteDelEntry) ∧
    ∃ (pre : List Line) (e : OperationLog),
      (recover ⟨true⟩ envC9 "note-op-1" "note-op-1" stC9).2.1.file
        = stC9.file ++ pre ++ [Line.entry e] ∧
      e.operation = .create ∧ e.app = noteDelEntry.app ∧
      e.target = noteDelEntry.target ∧
      e.data.after = noteDelEntry.data.before ∧
      e.metadata.confirmed = true ∧
      (∃ u, e.metadata.user = some (u ++ " (via recovery)")) ∧
      (recover ⟨true⟩ envC9 "note-op-1" "note-op-1" stC9).1.newOperationId
        = some e.id ∧
      (∀ e' : OperationLog, Line.entry e' ∈ pre →
        e'.metadata.confirmed = false) :=
  ⟨rfl, recover_success_single_audit_entry envC9 stC9 "note-op-1"
    "note-op-1" noteDelEntry rfl rfl rfl⟩

/-- Witness for C3's amended theorem on `fileC3` at cutoff 0. -/
theorem cleanup_count_and_sorted_rewrite_witness :
    (cleanupOldLogs 0 fileC3).1
      = (fileC3.filterMap parseLine).length
        - ((fileC3.filterMap parseLine).filter
            (fun x => (0 : Int) ≤ x.timestamp)).length ∧
    (cleanupOldLogs 0 fileC3).2
      = (sortTsDesc ((fileC3.filterMap parseLine).filter
          (fun x => (0 : Int) ≤ x.timestamp))).map Line.entry :=
  ⟨(cleanup_count_and_sorted_rewrite 0 fileC3).1,
    (cleanup_count_and_sorted_rewrite 0 fileC3).2 (by decide)⟩

end MacosAppMcp
